/-
Verification of the ScopeSignal classify-cache-validate core
(src/classifier/agent.py and src/classifier/cache.py) against its
natural-language specification.

The Python code is shallowly embedded: JSON values parsed by `json.loads`
become the inductive `JVal` (Python ints as `Int`, Python floats as `Rat`;
`json.loads` never yields NaN/Infinity for the payloads considered here),
Python dicts become insertion-ordered association lists with unique keys,
wall-clock times become rationals passed explicitly, and raised exceptions
become `Except` error values.  The file-system cache becomes an explicit
`CacheState` map from file name (cache key) to stored entry.
-/
import Mathlib

namespace ScopeSignal

/-! ## JSON values (results of `json.loads`) -/

/-- A JSON value as produced by Python's `json.loads`: booleans, ints,
floats (modelled exactly as rationals), strings, `null`, arrays and
objects.  Objects are insertion-ordered association lists, mirroring
Python dicts. -/
inductive JVal where
  | jbool (b : Bool)
  | jint (n : Int)
  | jfloat (q : Rat)
  | jstr (s : String)
  | jnull
  | jarr (elems : List JVal)
  | jobj (fields : List (String × JVal))

/-- Python truthiness (`if x:`): `False`, `0`, `0.0`, `""`, `None`, `[]`,
`{}` are falsy, everything else truthy. -/
def JVal.truthy : JVal → Bool
  | .jbool b => b
  | .jint n => !(n == 0)
  | .jfloat q => !(q == 0)
  | .jstr s => !s.isEmpty
  | .jnull => false
  | .jarr xs => !xs.isEmpty
  | .jobj fs => !fs.isEmpty

/-- Python `isinstance(x, (int, float))` together with the numeric value
used in comparisons.  `bool` is a subclass of `int` in Python, so `True`
counts as the number 1. -/
def JVal.asNum : JVal → Option Rat
  | .jbool b => some (if b then 1 else 0)
  | .jint n => some (n : Rat)
  | .jfloat q => some q
  | _ => none

/-- Python `x == s` for a string literal `s`: true exactly when the value
is that string. -/
def JVal.isStr (v : JVal) (s : String) : Bool :=
  match v with
  | .jstr t => t == s
  | _ => false

/-! ## Dict operations (Python dict semantics on ordered assoc lists) -/

/-- `d[k]` / `k in d` lookup. -/
def lookupField : List (String × JVal) → String → Option JVal
  | [], _ => none
  | (k, v) :: rest, key => if k == key then some v else lookupField rest key

/-- `d[k] = v`: replace in place if the key exists (Python keeps the key's
position), else append at the end. -/
def setField : List (String × JVal) → String → JVal → List (String × JVal)
  | [], key, v => [(key, v)]
  | (k, w) :: rest, key, v =>
    if k == key then (k, v) :: rest else (k, w) :: setField rest key v

/-- `d.pop(k, None)`'s effect on the dict: drop the (unique) binding. -/
def removeField : List (String × JVal) → String → List (String × JVal)
  | [], _ => []
  | (k, w) :: rest, key =>
    if k == key then rest else (k, w) :: removeField rest key

/-! ## Invariant Validator (agent.py lines 128-159 and 209-231) -/

/-- Rejection causes of one validation attempt.  `fieldAccess` stands for
Python's `KeyError` on a missing subscript, `badComparison` for the
`TypeError` raised when `>` compares a non-number (both unreachable on the
pipeline path, where field presence and numeric type are checked first). -/
inductive VErr where
  | missingField (f : String)
  | invalidClassification
  | confidenceRange
  | notRelevantNotClosed
  | contestableCeiling
  | softOpenCeiling
  | notDict
  | fieldAccess
  | badComparison
deriving DecidableEq

/-- The six required output fields, in the order they are checked. -/
def requiredFields : List String :=
  ["trade_relevant", "classification", "confidence",
   "reasoning", "risk_note", "recommended_action"]

/-- First required field missing from the payload (the loop
`for field in required_fields: if field not in result: raise`). -/
def firstMissing (fs : List (String × JVal)) : List String → Option String
  | [] => none
  | f :: rest =>
    if (lookupField fs f).isSome then firstMissing fs rest else some f

/-- `if classification == "SOFT_OPEN" and confidence > 75: raise`. -/
def softOpenCheck (cls conf : JVal) : Except VErr Unit :=
  if cls.isStr "SOFT_OPEN" then
    match conf.asNum with
    | none => .error .badComparison
    | some q => if (75 : Rat) < q then .error .softOpenCeiling else .ok ()
  else .ok ()

/-- The two confidence-ceiling checks of `_validate_schema_invariants`
(lines 149-159), with Python's short-circuit evaluation: the confidence is
only compared when the classification matches. -/
def ceilingChecks (cls conf : JVal) : Except VErr Unit :=
  if cls.isStr "CONTESTABLE" then
    match conf.asNum with
    | none => .error .badComparison
    | some q =>
      if (85 : Rat) < q then .error .contestableCeiling
      else softOpenCheck cls conf
  else softOpenCheck cls conf

/-- Lines 146-147: `classification = result["classification"];
confidence = result["confidence"]`, then the ceiling checks. -/
def invariantTail (fs : List (String × JVal)) : Except VErr Unit :=
  match lookupField fs "classification", lookupField fs "confidence" with
  | some cls, some conf => ceilingChecks cls conf
  | _, _ => .error .fieldAccess

/-- `ScopeSignalClassifier._validate_schema_invariants` (lines 128-159).
Field accesses happen in source order: `result["trade_relevant"]` first;
`result["classification"]` is reached in the first check only when
`trade_relevant` is falsy (short-circuit of `and`). -/
def validateSchemaInvariants (v : JVal) : Except VErr Unit :=
  match v with
  | .jobj fs =>
    match lookupField fs "trade_relevant" with
    | none => .error .fieldAccess
    | some tr =>
      if tr.truthy then invariantTail fs
      else
        match lookupField fs "classification" with
        | none => .error .fieldAccess
        | some cls =>
          if cls.isStr "CLOSED" then invariantTail fs
          else .error .notRelevantNotClosed
  | _ => .error .fieldAccess

/-- The three admissible classification strings (line 222). -/
def isValidClass (v : JVal) : Bool :=
  v.isStr "CLOSED" || v.isStr "SOFT_OPEN" || v.isStr "CONTESTABLE"

/-- The structural + domain validation applied to one parsed response
(`classify_update` lines 209-231): required-field presence, classification
enumeration, `isinstance(confidence, (int, float))` with range `[0, 100]`,
then `_validate_schema_invariants`.  A non-dict top-level value is
rejected (in Python via a missing-field or indexing error on this path;
the accept/reject outcome is identical). -/
def validateResponse (v : JVal) : Except VErr Unit :=
  match v with
  | .jobj fs =>
    match firstMissing fs requiredFields with
    | some f => .error (.missingField f)
    | none =>
      if isValidClass ((lookupField fs "classification").getD .jnull) then
        match ((lookupField fs "confidence").getD .jnull).asNum with
        | none => .error .confidenceRange
        | some q =>
          if q < 0 || 100 < q then .error .confidenceRange
          else validateSchemaInvariants v
      else .error .invalidClassification
  | _ => .error .notDict

/-! ## Retry Controller (agent.py lines 194-271) -/

/-- Exceptions escaping the cache layer into the caller (`TypeError` on a
non-numeric stored timestamp or item assignment into a non-dict,
`AttributeError` on `.get`/`.copy` of a non-dict, `ZeroDivisionError` in
batch progress reporting). -/
inductive PyErr where
  | typeError
  | attributeError
  | zeroDivision
deriving DecidableEq

/-- What one iteration of the retry loop observes from the remote call
plus `json.loads`: a transport-level exception from `_call_llm`, a
`json.JSONDecodeError`, or a successfully parsed JSON value.  (The
markdown-fence stripping of lines 203-207 happens before parsing and is
part of this boundary.) -/
inductive AttemptOutcome where
  | transportFailure (msg : String)
  | parseFailure (msg : String)
  | parsed (v : JVal)

/-- The cause of one failed attempt, recorded by the `except` clauses. -/
inductive AErr where
  | transport (msg : String)
  | parse (msg : String)
  | invalid (e : VErr)
  | metaError (e : PyErr)
deriving DecidableEq

/-- Words whose presence in the reasoning marks an ambiguity-driven
downgrade (line 252). -/
def ambiguityWords : List String :=
  ["unclear", "ambiguous", "missing", "vague", "uncertain"]

/-- `sub` occurs at the start of `l`. -/
def listStartsWith : List Char → List Char → Bool
  | _, [] => true
  | [], _ :: _ => false
  | a :: as, b :: bs => a == b && listStartsWith as bs

/-- Python `sub in s` substring containment on character lists. -/
def listContainsSub : List Char → List Char → Bool
  | [], sub => listStartsWith [] sub
  | l@(_ :: as), sub => listStartsWith l sub || listContainsSub as sub

/-- Python `sub in s` on strings (`str.lower` is applied by the caller;
the embedding uses Lean's ASCII-level `toLower`, which agrees with Python
on the ASCII reasoning texts relevant here). -/
def strContainsSub (s sub : String) : Bool :=
  listContainsSub s.data sub.data

/-- The per-success metadata dict of lines 237-244 (the wall-clock
`latency_ms` entry is an opaque measurement and is omitted; no claim
reads it).  `attempt` is the 1-based attempt number. -/
def baseMetadata (attempt : Nat) (key trade : String) : List (String × JVal) :=
  [("trade", .jstr trade), ("model", .jstr "deepseek-chat"),
   ("attempt", .jint attempt), ("cache_key", .jstr key),
   ("provider", .jstr "deepseek")]

/-- Lines 236-253: attach `_metadata` (overwriting any model-supplied
`_metadata` key in place, as Python dict assignment does) and the
`downgrade_reason` annotations.  `result["reasoning"].lower()` raises
`AttributeError` when the reasoning is not a string; the missing-field
arms are unreachable after validation. -/
def addMetadata (v : JVal) (attempt : Nat) (key trade : String) :
    Except PyErr JVal :=
  match v with
  | .jobj fs =>
    let md := baseMetadata attempt key trade
    match lookupField fs "trade_relevant", lookupField fs "classification" with
    | some tr, some cls =>
      if tr.truthy then
        if cls.isStr "CLOSED" then
          match lookupField fs "reasoning" with
          | some (.jstr s) =>
            if ambiguityWords.any (fun w => strContainsSub s.toLower w) then
              .ok (.jobj (setField fs "_metadata"
                (.jobj (md ++ [("downgrade_reason", .jstr "ambiguous_language")]))))
            else .ok (.jobj (setField fs "_metadata" (.jobj md)))
          | _ => .error .attributeError
        else .ok (.jobj (setField fs "_metadata" (.jobj md)))
      else
        .ok (.jobj (setField fs "_metadata"
          (.jobj (md ++ [("downgrade_reason", .jstr "trade_irrelevant")]))))
    | _, _ => .error .attributeError
  | _ => .error .attributeError

/-- The body of one `try` iteration after the raw response is obtained:
parse outcome, structural/domain validation, metadata attachment.  Any
failure is caught by the `except` clauses and drives the retry policy;
all failure classes are treated identically. -/
def attemptStep (o : AttemptOutcome) (attempt : Nat) (key trade : String) :
    Except AErr JVal :=
  match o with
  | .transportFailure m => .error (.transport m)
  | .parseFailure m => .error (.parse m)
  | .parsed v =>
    match validateResponse v with
    | .error e => .error (.invalid e)
    | .ok _ =>
      match addMetadata v (attempt + 1) key trade with
      | .ok w => .ok w
      | .error e => .error (.metaError e)

/-- The attempt-step function induced by a sequence of raw responses. -/
def attemptStepOf (responses : Nat → AttemptOutcome) (key trade : String)
    (a : Nat) : Except AErr JVal :=
  attemptStep (responses a) a key trade

/-- Terminal outcome of the retry loop: `ClassificationError` carrying the
attempt budget and last underlying error (lines 262-269), or the guard
`raise ClassificationError("Unexpected retry loop exit")` for an empty
loop (line 271). -/
inductive LoopErr where
  | failure (attempts : Nat) (lastErr : AErr)
  | unexpectedExit
deriving DecidableEq

/-- Observable result of the retry loop: the returned payload or terminal
error, the number of attempts actually made, and the backoff sleeps
performed (each `time.sleep(2 ** attempt)`), in order. -/
structure LoopResult where
  outcome : Except LoopErr JVal
  attemptsMade : Nat
  sleeps : List Nat

/-- `for attempt in range(max_retries)` of lines 194-271, starting at
attempt index `a` with `fuel = max_retries - a` iterations left.  On a
failure at the last index (`attempt == max_retries - 1`) the typed
terminal error is raised; otherwise the loop sleeps `2 ** attempt` and
continues. -/
def runFrom (step : Nat → Except AErr JVal) (maxRetries : Nat) :
    Nat → Nat → LoopResult
  | 0, _ => ⟨.error .unexpectedExit, 0, []⟩
  | fuel + 1, a =>
    match step a with
    | .ok v => ⟨.ok v, 1, []⟩
    | .error e =>
      if a == maxRetries - 1 then ⟨.error (.failure maxRetries e), 1, []⟩
      else
        let r := runFrom step maxRetries fuel (a + 1)
        ⟨r.outcome, r.attemptsMade + 1, 2 ^ a :: r.sleeps⟩

/-- The whole retry loop of `classify_update`. -/
def classifyLoop (step : Nat → Except AErr JVal) (maxRetries : Nat) :
    LoopResult :=
  runFrom step maxRetries maxRetries 0

/-! ## Result Cache (cache.py) -/

/-- What a stored cache file can hold, as seen by `ResultCache.get`:
the file may be unreadable (`OSError`), contain text that is not JSON
(`json.JSONDecodeError`), or parse to some JSON value. -/
inductive StoredEntry where
  | unreadable
  | notJson
  | val (v : JVal)

/-- The cache directory: one optional entry per cache key. -/
def CacheState : Type := String → Option StoredEntry

/-- `cache_file.unlink()`. -/
def stDel (st : CacheState) (key : String) : CacheState :=
  fun k => if k == key then none else st k

/-- Exact rational subtraction, written on numerators/denominators so
that it evaluates by kernel reduction (the library's `Rat.sub` is marked
irreducible); `ratSub_eq` below proves it equal to `a - b`. -/
def ratSub (a b : Rat) : Rat :=
  mkRat (a.num * b.den - b.num * a.den) (a.den * b.den)

/-- Writing a file for `key`. -/
def stPut (st : CacheState) (key : String) (e : StoredEntry) : CacheState :=
  fun k => if k == key then some e else st k

/-- Python `int(x)` on a float/rational: truncation toward zero, which on
a normalized rational is truncating division of numerator by
denominator. -/
def truncInt (q : Rat) : Int := q.num.tdiv q.den

/-- The creation timestamp read by `get`:
`cached.get("_cache_timestamp", 0)`, then used as a number
(`time.time() - cached_time`); a non-numeric value raises `TypeError`. -/
def tsOfFields (fs : List (String × JVal)) : Option Rat :=
  ((lookupField fs "_cache_timestamp").getD (.jint 0)).asNum

/-- Lines 58-68 of `ResultCache.get`: strip `_cache_timestamp` (done by
the caller of this helper), then mark the copy as a cache hit.  A present
but non-dict `_metadata` value makes the item assignment raise
`TypeError`. -/
def annotateHit (fs1 : List (String × JVal)) (age : Rat) : Except PyErr JVal :=
  match lookupField fs1 "_metadata" with
  | none =>
    .ok (.jobj (setField fs1 "_metadata"
      (.jobj [("cache_hit", .jbool true),
              ("cache_age_seconds", .jint (truncInt age))])))
  | some (.jobj md) =>
    .ok (.jobj (setField fs1 "_metadata"
      (.jobj (setField (setField md "cache_hit" (.jbool true))
        "cache_age_seconds" (.jint (truncInt age))))))
  | some _ => .error .typeError

/-- `ResultCache.get` (cache.py lines 30-73).  Only `json.JSONDecodeError`
and `OSError` are caught (entry deleted, `None` returned); an entry that
parses to a non-dict raises `AttributeError` at `cached.get`, and a
non-numeric `_cache_timestamp` or non-dict `_metadata` raises `TypeError`
— those escape to the caller with the state unchanged.  An entry older
than `ttl` is deleted and reported absent. -/
def cacheGet (ttl : Rat) (st : CacheState) (now : Rat) (key : String) :
    Except PyErr (Option JVal) × CacheState :=
  match st key with
  | none => (.ok none, st)
  | some .unreadable => (.ok none, stDel st key)
  | some .notJson => (.ok none, stDel st key)
  | some (.val cached) =>
    match cached with
    | .jobj fs =>
      match tsOfFields fs with
      | none => (.error .typeError, st)
      | some ts =>
        let age := ratSub now ts
        if ttl < age then (.ok none, stDel st key)
        else
          match annotateHit (removeField fs "_cache_timestamp") age with
          | .ok r => (.ok (some r), st)
          | .error e => (.error e, st)
    | _ => (.error .attributeError, st)

/-- `result.copy()` plus `cached_result["_cache_timestamp"] = time.time()`
on a dict payload (`set` is only ever called with the dict built by
`classify_update`). -/
def JVal.setF : JVal → String → JVal → JVal
  | .jobj fs, k, v => .jobj (setField fs k v)
  | x, _, _ => x

/-- `ResultCache.set` (cache.py lines 75-94): stamp a copy of the result
and write it, swallowing any `OSError` (`writeFails` selects whether the
write raises; on failure the state is unchanged and no error escapes). -/
def cacheSet (st : CacheState) (now : Rat) (key : String) (result : JVal)
    (writeFails : Bool) : CacheState :=
  let stored := result.setF "_cache_timestamp" (.jfloat now)
  if writeFails then st else stPut st key (.val stored)

/-! ## `classify_update` (agent.py lines 161-271) -/

/-- Errors surfaced to the caller of `classify_update`: the trade
precondition `ValueError`, an exception escaping the cache lookup, the
terminal `ClassificationError` (with attempt budget and last cause), or
the unreachable-loop guard. -/
inductive TopErr where
  | invalidTrade
  | cacheError (e : PyErr)
  | classificationFailed (attempts : Nat) (lastErr : AErr)
  | unexpectedExit
deriving DecidableEq

/-- Observable behaviour of one `classify_update` call: result or raised
error, resulting cache directory, number of remote attempts made, and
backoff sleeps. -/
structure ClassifyOutcome where
  result : Except TopErr JVal
  state : CacheState
  attemptsMade : Nat
  sleeps : List Nat

/-- `trade not in ["Electrical", "HVAC", "Plumbing"]` (line 180). -/
def validTrades : List String := ["Electrical", "HVAC", "Plumbing"]

/-- The retry phase of `classify_update` after a cache miss: run the loop;
on success write the result back (when caching is enabled) and return it. -/
def classifyAttemptPhase (st : CacheState) (now : Rat) (cacheEnabled : Bool)
    (key trade : String) (responses : Nat → AttemptOutcome)
    (maxRetries : Nat) (writeFails : Bool) : ClassifyOutcome :=
  let lr := classifyLoop (attemptStepOf responses key trade) maxRetries
  match lr.outcome with
  | .ok v =>
    ⟨.ok v, if cacheEnabled then cacheSet st now key v writeFails else st,
     lr.attemptsMade, lr.sleeps⟩
  | .error (.failure n e) =>
    ⟨.error (.classificationFailed n e), st, lr.attemptsMade, lr.sleeps⟩
  | .error .unexpectedExit =>
    ⟨.error .unexpectedExit, st, lr.attemptsMade, lr.sleeps⟩

/-- `ScopeSignalClassifier.classify_update`: trade precondition, cache
key, cache lookup (`if cached_result:` is Python truthiness), then the
retry loop on a miss.  `cacheKeyOf` is defined with the fingerprinter
below. -/
def classifyUpdateWith (cacheKeyOf : String → String → String) (ttl : Rat)
    (st : CacheState) (now : Rat) (cacheEnabled : Bool)
    (updateText trade : String) (responses : Nat → AttemptOutcome)
    (maxRetries : Nat) (writeFails : Bool) : ClassifyOutcome :=
  if trade ∈ validTrades then
    let key := cacheKeyOf updateText trade
    if cacheEnabled then
      match cacheGet ttl st now key with
      | (.error e, st1) => ⟨.error (.cacheError e), st1, 0, []⟩
      | (.ok (some v), st1) =>
        if v.truthy then ⟨.ok v, st1, 0, []⟩
        else classifyAttemptPhase st1 now cacheEnabled key trade responses
          maxRetries writeFails
      | (.ok none, st1) =>
        classifyAttemptPhase st1 now cacheEnabled key trade responses
          maxRetries writeFails
    else
      classifyAttemptPhase st now cacheEnabled key trade responses
        maxRetries writeFails
  else ⟨.error .invalidTrade, st, 0, []⟩

/-! ## `classify_batch` (agent.py lines 273-345) -/

/-- One input item of a batch: the `text` and `trade` keys plus the
optional `id`. -/
structure BatchItem where
  text : String
  trade : String
  ident : Option String

/-- The per-item body of the batch loop: a successful classification gets
`update_id` attached when an `id` was provided; an exception is captured
as an error record in the same slot (lines 311-337). -/
def batchRecord (classify : BatchItem → Except String JVal) (it : BatchItem) :
    JVal :=
  match classify it with
  | .ok r =>
    match it.ident with
    | some i => r.setF "update_id" (.jstr i)
    | none => r
  | .error e =>
    let base : List (String × JVal) :=
      [("error", .jstr e), ("text", .jstr it.text),
       ("trade", .jstr it.trade), ("classification", .jstr "ERROR")]
    match it.ident with
    | some i => .jobj (base ++ [("update_id", .jstr i)])
    | none => .jobj base

/-- `ScopeSignalClassifier.classify_batch`.  `elapsed` is the measured
wall-clock duration used by the final progress report.  With
`show_progress` enabled, line 342 evaluates `total / elapsed` and line 343
evaluates `cache_hits / total * 100`; either division raises
`ZeroDivisionError` (when `elapsed == 0`, respectively when the batch is
empty), discarding the computed results. -/
def classifyBatch (classify : BatchItem → Except String JVal)
    (items : List BatchItem) (showProgress : Bool) (elapsed : Rat) :
    Except PyErr (List JVal) :=
  let results := items.map (batchRecord classify)
  if showProgress then
    if elapsed == 0 then .error .zeroDivision
    else if items.isEmpty then .error .zeroDivision
    else .ok results
  else .ok results

/-! ## Fingerprinter (`_cache_key`, agent.py lines 93-99)

`hashlib.sha256(f"{trade}:{update_text}".encode()).hexdigest()`:
SHA-256 (FIPS 180-4) over the UTF-8 bytes of `trade ++ ":" ++ text`,
rendered as 64 lowercase hex characters.  The hash is implemented below on
`Nat` byte lists with arithmetic modulo `2 ^ 32`. -/

/-- UTF-8 encoding of one Unicode scalar value, as `str.encode()` does. -/
def utf8EncodeChar (c : Char) : List Nat :=
  let n := c.toNat
  if n < 128 then [n]
  else if n < 2048 then
    [192 ||| (n >>> 6), 128 ||| (n &&& 63)]
  else if n < 65536 then
    [224 ||| (n >>> 12), 128 ||| ((n >>> 6) &&& 63), 128 ||| (n &&& 63)]
  else
    [240 ||| (n >>> 18), 128 ||| ((n >>> 12) &&& 63),
     128 ||| ((n >>> 6) &&& 63), 128 ||| (n &&& 63)]

/-- `s.encode()`: UTF-8 bytes of a string. -/
def utf8Encode (s : String) : List Nat :=
  s.data.foldr (fun c acc => utf8EncodeChar c ++ acc) []

/-- Arithmetic modulo `2 ^ 32`. -/
def wordMod : Nat := 4294967296

/-- Right rotation of a 32-bit word. -/
def rotr (n x : Nat) : Nat := (x >>> n) ||| ((x <<< (32 - n)) % wordMod)

def bsig0 (x : Nat) : Nat := rotr 2 x ^^^ rotr 13 x ^^^ rotr 22 x

def bsig1 (x : Nat) : Nat := rotr 6 x ^^^ rotr 11 x ^^^ rotr 25 x

def ssig0 (x : Nat) : Nat := rotr 7 x ^^^ rotr 18 x ^^^ (x >>> 3)

def ssig1 (x : Nat) : Nat := rotr 17 x ^^^ rotr 19 x ^^^ (x >>> 10)

def chFun (x y z : Nat) : Nat := (x &&& y) ^^^ ((x ^^^ (wordMod - 1)) &&& z)

def majFun (x y z : Nat) : Nat := (x &&& y) ^^^ (x &&& z) ^^^ (y &&& z)

/-- The 64 SHA-256 round constants of FIPS 180-4 (decimal). -/
def roundConsts : List Nat :=
  [1116352408, 1899447441, 3049323471,
   3921009573, 961987163, 1508970993,
   2453635748, 2870763221, 3624381080,
   310598401, 607225278, 1426881987,
   1925078388, 2162078206, 2614888103,
   3248222580, 3835390401, 4022224774,
   264347078, 604807628, 770255983,
   1249150122, 1555081692, 1996064986,
   2554220882, 2821834349, 2952996808,
   3210313671, 3336571891, 3584528711,
   113926993, 338241895, 666307205,
   773529912, 1294757372, 1396182291,
   1695183700, 1986661051, 2177026350,
   2456956037, 2730485921, 2820302411,
   3259730800, 3345764771, 3516065817,
   3600352804, 4094571909, 275423344,
   430227734, 506948616, 659060556,
   883997877, 958139571, 1322822218,
   1537002063, 1747873779, 1955562222,
   2024104815, 2227730452, 2361852424,
   2428436474, 2756734187, 3204031479,
   3329325298]

/-- `numBytes`-byte big-endian encoding of `n`. -/
def toBytesBE (numBytes n : Nat) : List Nat :=
  (List.range numBytes).map (fun i => (n >>> (8 * (numBytes - 1 - i))) % 256)

/-- SHA-256 padding: append `0x80`, zero bytes up to 56 mod 64, then the
64-bit big-endian bit length. -/
def padMessage (msg : List Nat) : List Nat :=
  msg ++ [128] ++ List.replicate ((119 - msg.length % 64) % 64) 0
      ++ toBytesBE 8 (msg.length * 8)

/-- Split into 64-byte chunks (`fuel` bounds the recursion). -/
def chunkGo : Nat → List Nat → List (List Nat)
  | 0, _ => []
  | _ + 1, [] => []
  | fuel + 1, l => l.take 64 :: chunkGo fuel (l.drop 64)

/-- Big-endian 32-bit words from bytes. -/
def bytesToWords : List Nat → List Nat
  | b0 :: b1 :: b2 :: b3 :: rest =>
    (((b0 * 256 + b1) * 256 + b2) * 256 + b3) :: bytesToWords rest
  | _ => []

/-- Append one extended message-schedule word. -/
def schedStep (ws : List Nat) : List Nat :=
  let n := ws.length
  ws ++ [(ssig1 (ws.getD (n - 2) 0) + ws.getD (n - 7) 0
          + ssig0 (ws.getD (n - 15) 0) + ws.getD (n - 16) 0) % wordMod]

/-- Extend the 16 chunk words to the 64 schedule words. -/
def schedule (ws : List Nat) : Nat → List Nat
  | 0 => ws
  | k + 1 => schedule (schedStep ws) k

/-- The eight 32-bit working variables. -/
structure Hash8 where
  a : Nat
  b : Nat
  c : Nat
  d : Nat
  e : Nat
  f : Nat
  g : Nat
  h : Nat

/-- Initial SHA-256 hash value of FIPS 180-4 (decimal). -/
def initHash : Hash8 :=
  ⟨1779033703, 3144134277, 1013904242,
   2773480762, 1359893119, 2600822924,
   528734635, 1541459225⟩

/-- One compression round for a (round constant, schedule word) pair. -/
def compressStep (st : Hash8) (kw : Nat × Nat) : Hash8 :=
  let t1 := (st.h + bsig1 st.e + chFun st.e st.f st.g + kw.1 + kw.2) % wordMod
  let t2 := (bsig0 st.a + majFun st.a st.b st.c) % wordMod
  ⟨(t1 + t2) % wordMod, st.a, st.b, st.c, (st.d + t1) % wordMod,
   st.e, st.f, st.g⟩

/-- Process one 64-byte chunk. -/
def compressChunk (hs : Hash8) (chunk : List Nat) : Hash8 :=
  let ws := schedule (bytesToWords chunk) 48
  let st := (roundConsts.zip ws).foldl compressStep hs
  ⟨(hs.a + st.a) % wordMod, (hs.b + st.b) % wordMod,
   (hs.c + st.c) % wordMod, (hs.d + st.d) % wordMod,
   (hs.e + st.e) % wordMod, (hs.f + st.f) % wordMod,
   (hs.g + st.g) % wordMod, (hs.h + st.h) % wordMod⟩

/-- SHA-256 digest of a byte list, as eight 32-bit words. -/
def sha256Words (msg : List Nat) : Hash8 :=
  let padded := padMessage msg
  (chunkGo padded.length padded).foldl compressChunk initHash

/-- Lowercase hex digit. -/
def hexChar (n : Nat) : Char := "0123456789abcdef".data.getD n '0'

/-- Eight lowercase hex characters of a 32-bit word. -/
def hexWord (n : Nat) : String :=
  String.mk ((List.range 8).map (fun i => hexChar ((n >>> (4 * (7 - i))) % 16)))

/-- `hashlib.sha256(bytes).hexdigest()`. -/
def sha256Hex (msg : List Nat) : String :=
  let w := sha256Words msg
  hexWord w.a ++ hexWord w.b ++ hexWord w.c ++ hexWord w.d
    ++ hexWord w.e ++ hexWord w.f ++ hexWord w.g ++ hexWord w.h

/-- The canonical byte-encoding source string `f"{trade}:{update_text}"`. -/
def canonicalEncoding (trade updateText : String) : String :=
  trade ++ ":" ++ updateText

/-- `ScopeSignalClassifier._cache_key(update_text, trade)`. -/
def cacheKeyFn (updateText trade : String) : String :=
  sha256Hex (utf8Encode (canonicalEncoding trade updateText))

/-- `classify_update` with the real fingerprinter plugged in. -/
def classifyUpdate (ttl : Rat) (st : CacheState) (now : Rat)
    (cacheEnabled : Bool) (updateText trade : String)
    (responses : Nat → AttemptOutcome) (maxRetries : Nat)
    (writeFails : Bool) : ClassifyOutcome :=
  classifyUpdateWith cacheKeyFn ttl st now cacheEnabled updateText trade
    responses maxRetries writeFails

/-! ## Derived predicates used in the statements -/

/-- The three §3 Decision invariants, phrased as the claims phrase them:
a payload with `trade_relevant = false` but a classification other than
`"CLOSED"`, or `"CONTESTABLE"` with confidence above 85, or `"SOFT_OPEN"`
with confidence above 75, violates a domain invariant. -/
def violatesInvariants (v : JVal) : Bool :=
  match v with
  | .jobj fs =>
    (match lookupField fs "trade_relevant", lookupField fs "classification" with
     | some (.jbool false), some cls => !(cls.isStr "CLOSED")
     | _, _ => false)
    ||
    (match lookupField fs "classification", lookupField fs "confidence" with
     | some cls, some conf =>
       (cls.isStr "CONTESTABLE" && (match conf.asNum with
          | some q => decide ((85 : Rat) < q)
          | none => false))
       || (cls.isStr "SOFT_OPEN" && (match conf.asNum with
          | some q => decide ((75 : Rat) < q)
          | none => false))
     | _, _ => false)
  | _ => false

/-- Whether an attempt produced an accepted payload. -/
def exOk (r : Except AErr JVal) : Bool :=
  match r with
  | .ok _ => true
  | .error _ => false

/-- The error of a failed attempt (dummy transport error on success). -/
def errOfE (r : Except AErr JVal) : AErr :=
  match r with
  | .error e => e
  | .ok _ => .transport ""

/-- Field lookup lifted to JSON values. -/
def getFieldJ (v : JVal) (key : String) : Option JVal :=
  match v with
  | .jobj fs => lookupField fs key
  | _ => none

/-- The 1-based attempt number recorded in a result's metadata. -/
def metaAttempt (v : JVal) : Option JVal :=
  (getFieldJ v "_metadata").bind (fun m => getFieldJ m "attempt")

/-- Whether a JSON value is an object (a Python dict). -/
def JVal.isObj : JVal → Bool
  | .jobj _ => true
  | _ => false

/-! ## Concrete payloads and cache states used in the closed statements -/

/-- Spec §8 payload: `relevant = false` with a non-`CLOSED`
classification. -/
def pBadRelevant : JVal :=
  .jobj [("trade_relevant", .jbool false),
         ("classification", .jstr "SOFT_OPEN"), ("confidence", .jint 60),
         ("reasoning", .jstr "Soft scope."),
         ("risk_note", .jstr "Could be wrong."),
         ("recommended_action", .jstr "Watch.")]

/-- Spec §8 payload: `CONTESTABLE` with confidence 90. -/
def pContest90 : JVal :=
  .jobj [("trade_relevant", .jbool true),
         ("classification", .jstr "CONTESTABLE"), ("confidence", .jint 90),
         ("reasoning", .jstr "Open bid."), ("risk_note", .jstr "Optimism."),
         ("recommended_action", .jstr "Bid.")]

/-- Spec §8 payload: confidence 101 (outside `[0, 100]`). -/
def pConf101Fields : List (String × JVal) :=
  [("trade_relevant", .jbool true),
   ("classification", .jstr "CLOSED"), ("confidence", .jint 101),
   ("reasoning", .jstr "Done."), ("risk_note", .jstr "None."),
   ("recommended_action", .jstr "Skip.")]

def pConf101 : JVal := .jobj pConf101Fields

/-- A payload whose classification is not even a string. -/
def pBadClassFields : List (String × JVal) :=
  [("trade_relevant", .jbool true), ("classification", .jint 3),
   ("confidence", .jint 50), ("reasoning", .jstr "r"),
   ("risk_note", .jstr "n"), ("recommended_action", .jstr "a")]

def pBadClass : JVal := .jobj pBadClassFields

/-- A payload whose confidence is the Python float `72.5` (the rational
`145/2`): numeric and in range, but not an integer. -/
def pHalfConf : JVal :=
  .jobj [("trade_relevant", .jbool true),
         ("classification", .jstr "CLOSED"),
         ("confidence", .jfloat (mkRat 145 2)),
         ("reasoning", .jstr "Done."), ("risk_note", .jstr "None."),
         ("recommended_action", .jstr "Skip.")]

/-- Spec §8 rejection-then-retry scenario, first response:
`CONTESTABLE` with confidence 95 (invariant-violating). -/
def pContest95 : JVal :=
  .jobj [("trade_relevant", .jbool true),
         ("classification", .jstr "CONTESTABLE"), ("confidence", .jint 95),
         ("reasoning", .jstr "Open bid."), ("risk_note", .jstr "Optimism."),
         ("recommended_action", .jstr "Bid.")]

/-- Spec §8 rejection-then-retry scenario, second response: confidence 80,
valid. -/
def pValid80Fields : List (String × JVal) :=
  [("trade_relevant", .jbool true),
   ("classification", .jstr "CONTESTABLE"), ("confidence", .jint 80),
   ("reasoning", .jstr "Open RFP with pricing deadline."),
   ("risk_note", .jstr "Incumbent may lurk."),
   ("recommended_action", .jstr "Submit pricing.")]

def pValid80 : JVal := .jobj pValid80Fields

/-- `pValid80` as returned by a successful first attempt. -/
def pValid80Meta1 : JVal :=
  .jobj (setField pValid80Fields "_metadata"
    (.jobj (baseMetadata 1 "k" "Electrical")))

/-- Response sequence for the retry-success scenario: a transport failure,
then the invariant-violating payload, then the valid one. -/
def c8Responses : Nat → AttemptOutcome := fun i =>
  if i == 0 then .transportFailure "net"
  else if i == 1 then .parsed pContest95
  else .parsed pValid80

/-- `pValid80` as returned by a successful third attempt. -/
def c8Result : JVal :=
  .jobj (setField pValid80Fields "_metadata"
    (.jobj (baseMetadata 3 "k" "Electrical")))

/-- An empty cache directory. -/
def emptyCache : CacheState := fun _ => none

/-- A cache directory whose single entry is valid JSON but has a string
`_cache_timestamp`. -/
def stBadTs : CacheState := fun k =>
  if k == "badkey" then
    some (.val (.jobj [("_cache_timestamp", .jstr "not a number")]))
  else none

/-- A cache directory whose single entry cannot be read (`OSError`). -/
def stUnreadable : CacheState := fun k =>
  if k == "u" then some .unreadable else none

/-- A cache directory whose single entry is not valid JSON. -/
def stNotJson : CacheState := fun k =>
  if k == "j" then some .notJson else none

/-- A cache directory with one well-formed entry written at time 50. -/
def c4Fields : List (String × JVal) :=
  [("classification", .jstr "CLOSED"), ("_cache_timestamp", .jfloat 50)]

def stC4 : CacheState := fun k =>
  if k == "k1" then some (.val (.jobj c4Fields)) else none

/-- An invariant-violating Decision snapshot sitting in the cache with a
fresh timestamp. -/
def c10Fields : List (String × JVal) :=
  [("trade_relevant", .jbool true),
   ("classification", .jstr "CONTESTABLE"), ("confidence", .jint 95),
   ("reasoning", .jstr "Cached."), ("risk_note", .jstr "None."),
   ("recommended_action", .jstr "Bid."),
   ("_cache_timestamp", .jfloat 100)]

def c10Key : String := cacheKeyFn "Amendment 2 issued." "Electrical"

def st10 : CacheState := fun k =>
  if k == c10Key then some (.val (.jobj c10Fields)) else none

/-- What `get` hands back for the `c10Fields` entry at time 100. -/
def c10Result : JVal :=
  .jobj (setField (removeField c10Fields "_cache_timestamp") "_metadata"
    (.jobj [("cache_hit", .jbool true), ("cache_age_seconds", .jint 0)]))

/-- Batch items and per-item behaviour for the batch scenario. -/
def c9Good : BatchItem := ⟨"RFP posted", "HVAC", some "u1"⟩

def c9Bad : BatchItem := ⟨"bad", "Electrical", none⟩

def c9Classify : BatchItem → Except String JVal := fun it =>
  if it.text == "bad" then .error "boom"
  else .ok (.jobj [("classification", .jstr "CONTESTABLE")])

/-! ## Arithmetic lemmas -/

theorem ratSub_eq (a b : Rat) : ratSub a b = a - b :=
  (Rat.sub_def' a b).symm

/-! ## Dict lemmas -/

theorem lookup_setField_self (fs : List (String × JVal)) (k : String)
    (v : JVal) : lookupField (setField fs k v) k = some v := by
  induction fs with
  | nil => simp [setField, lookupField]
  | cons p rest ih =>
    obtain ⟨k1, w⟩ := p
    by_cases h : k1 = k
    · subst h; simp [setField, lookupField]
    · simp [setField, lookupField, h, ih]

theorem lookup_setField_ne (fs : List (String × JVal)) (k k' : String)
    (v : JVal) (h : k' ≠ k) :
    lookupField (setField fs k v) k' = lookupField fs k' := by
  have hne : ¬k = k' := fun hh => h hh.symm
  induction fs with
  | nil => simp [setField, lookupField, hne]
  | cons p rest ih =>
    obtain ⟨k1, w⟩ := p
    by_cases h1 : k1 = k
    · subst h1
      simp [setField, lookupField, show ¬k1 = k' from hne]
    · by_cases h2 : k1 = k'
      · subst h2; simp [setField, lookupField, h1]
      · simp [setField, lookupField, h1, h2, ih]

theorem remove_setField (fs : List (String × JVal)) (k : String) (v : JVal) :
    removeField (setField fs k v) k = removeField fs k := by
  induction fs with
  | nil => simp [setField, removeField]
  | cons p rest ih =>
    obtain ⟨k1, w⟩ := p
    by_cases h : k1 = k
    · subst h; simp [setField, removeField]
    · simp [setField, removeField, h, ih]

theorem setField_ne_nil (fs : List (String × JVal)) (k : String) (v : JVal) :
    setField fs k v ≠ [] := by
  cases fs with
  | nil => simp [setField]
  | cons p rest =>
    obtain ⟨k1, w⟩ := p
    by_cases h : k1 = k
    · subst h; simp [setField]
    · simp [setField, h]

theorem firstMissing_none (fs : List (String × JVal)) (req : List String)
    (h : firstMissing fs req = none) :
    ∀ f ∈ req, (lookupField fs f).isSome := by
  induction req with
  | nil => simp
  | cons f0 rest ih =>
    intro f hf
    by_cases h0 : (lookupField fs f0).isSome
    · rcases List.mem_cons.mp hf with rfl | hmem
      · exact h0
      · exact ih (by simpa [firstMissing, h0] using h) f hmem
    · simp [firstMissing, h0] at h

/-! ## Validator lemmas -/

theorem isStr_eq {v : JVal} {s : String} (h : v.isStr s = true) :
    v = .jstr s := by
  cases v <;> simp [JVal.isStr] at h ⊢; exact h

theorem validateResponse_ok_schema {v : JVal}
    (h : validateResponse v = .ok ()) :
    validateSchemaInvariants v = .ok () := by
  cases v with
  | jobj fs =>
    simp only [validateResponse] at h
    rcases hfm : firstMissing fs requiredFields with _ | f
    · rw [hfm] at h
      dsimp only at h
      by_cases hcls : isValidClass ((lookupField fs "classification").getD .jnull)
      · rw [if_pos hcls] at h
        rcases hq : ((lookupField fs "confidence").getD .jnull).asNum with _ | q
        · rw [hq] at h; exact Except.noConfusion h
        · rw [hq] at h
          dsimp only at h
          by_cases hrange : (decide ((q : Rat) < 0) || decide (100 < q)) = true
          · rw [if_pos hrange] at h; exact Except.noConfusion h
          · rw [if_neg hrange] at h; exact h
      · rw [if_neg hcls] at h; exact Except.noConfusion h
    · rw [hfm] at h; exact Except.noConfusion h
  | jbool b => exact Except.noConfusion h
  | jint n => exact Except.noConfusion h
  | jfloat q => exact Except.noConfusion h
  | jstr s => exact Except.noConfusion h
  | jnull => exact Except.noConfusion h
  | jarr xs => exact Except.noConfusion h

theorem violates_schemaError {v : JVal} (h : violatesInvariants v = true) :
    ∃ e, validateSchemaInvariants v = .error e := by
  cases v with
  | jobj fs =>
    simp only [violatesInvariants, Bool.or_eq_true] at h
    rcases h with hA | hB
    · rcases htr : lookupField fs "trade_relevant" with _ | tr <;> rw [htr] at hA
      · simp at hA
      · rcases hcls : lookupField fs "classification" with _ | cls <;>
          rw [hcls] at hA
        · cases tr <;> simp at hA
        · cases tr with
          | jbool b =>
            cases b with
            | false =>
              refine ⟨.notRelevantNotClosed, ?_⟩
              simp only [Bool.not_eq_true'] at hA
              simp [validateSchemaInvariants, htr, hcls, JVal.truthy, hA]
            | true => simp at hA
          | jint n => simp at hA
          | jfloat q => simp at hA
          | jstr s => simp at hA
          | jnull => simp at hA
          | jarr xs => simp at hA
          | jobj gs => simp at hA
    · rcases hcls : lookupField fs "classification" with _ | cls <;> rw [hcls] at hB
      · simp at hB
      · rcases hconf : lookupField fs "confidence" with _ | conf <;>
          rw [hconf] at hB
        · simp at hB
        · simp only [Bool.or_eq_true, Bool.and_eq_true] at hB
          rcases hB with ⟨hc, hx⟩ | ⟨hc, hx⟩
          · rcases hq : conf.asNum with _ | q <;> rw [hq] at hx
            · simp at hx
            · have hlt : (85 : Rat) < q := by simpa using hx
              have hceq := isStr_eq hc
              rcases htr : lookupField fs "trade_relevant" with _ | tr
              · exact ⟨.fieldAccess, by simp [validateSchemaInvariants, htr]⟩
              · by_cases htru : tr.truthy
                · refine ⟨.contestableCeiling, ?_⟩
                  simp [validateSchemaInvariants, htr, htru, invariantTail,
                    hcls, hconf, ceilingChecks, hc, hq, hlt]
                · refine ⟨.notRelevantNotClosed, ?_⟩
                  subst hceq
                  simp [validateSchemaInvariants, htr, htru, hcls, JVal.isStr]
          · rcases hq : conf.asNum with _ | q <;> rw [hq] at hx
            · simp at hx
            · have hlt : (75 : Rat) < q := by simpa using hx
              have hceq := isStr_eq hc
              rcases htr : lookupField fs "trade_relevant" with _ | tr
              · exact ⟨.fieldAccess, by simp [validateSchemaInvariants, htr]⟩
              · by_cases htru : tr.truthy
                · refine ⟨.softOpenCeiling, ?_⟩
                  subst hceq
                  simp [validateSchemaInvariants, htr, htru, invariantTail,
                    hcls, hconf, ceilingChecks, softOpenCheck, JVal.isStr,
                    hq, hlt]
                · refine ⟨.notRelevantNotClosed, ?_⟩
                  subst hceq
                  simp [validateSchemaInvariants, htr, htru, hcls, JVal.isStr]
  | jbool b => simp [violatesInvariants] at h
  | jint n => simp [violatesInvariants] at h
  | jfloat q => simp [violatesInvariants] at h
  | jstr s => simp [violatesInvariants] at h
  | jnull => simp [violatesInvariants] at h
  | jarr xs => simp [violatesInvariants] at h

theorem schemaOk_noViolation {v : JVal}
    (h : validateSchemaInvariants v = .ok ()) :
    violatesInvariants v = false := by
  cases hv : violatesInvariants v with
  | false => rfl
  | true =>
    rcases violates_schemaError hv with ⟨e, he⟩
    rw [h] at he
    exact Except.noConfusion he

theorem validateOk_noViolation {v : JVal}
    (h : validateResponse v = .ok ()) : violatesInvariants v = false :=
  schemaOk_noViolation (validateResponse_ok_schema h)

theorem violates_validateError {v : JVal} (h : violatesInvariants v = true) :
    ∃ e, validateResponse v = .error e := by
  cases hv : validateResponse v with
  | error e => exact ⟨e, rfl⟩
  | ok u =>
    cases u
    rw [validateOk_noViolation hv] at h
    exact Bool.noConfusion h

theorem lookup_baseMetadata_attempt (a : Nat) (key trade : String)
    (rest : List (String × JVal)) :
    lookupField (baseMetadata a key trade ++ rest) "attempt" =
      some (.jint a) := by
  simp [baseMetadata, lookupField]

theorem addMetadata_ok_shape {v w : JVal} {a : Nat} {key trade : String}
    (h : addMetadata v a key trade = .ok w) :
    ∃ fs rest, v = .jobj fs ∧
      w = .jobj (setField fs "_metadata"
        (.jobj (baseMetadata a key trade ++ rest))) := by
  cases v with
  | jobj fs =>
    simp only [addMetadata] at h
    rcases htr : lookupField fs "trade_relevant" with _ | tr <;> rw [htr] at h
    · simp at h
    · rcases hcls : lookupField fs "classification" with _ | cls <;>
        rw [hcls] at h
      · simp at h
      · dsimp only at h
        by_cases htru : tr.truthy
        · rw [if_pos htru] at h
          by_cases hcl : cls.isStr "CLOSED"
          · rw [if_pos hcl] at h
            rcases hr : lookupField fs "reasoning" with _ | r <;> rw [hr] at h
            · simp at h
            · cases r with
              | jstr s =>
                dsimp only at h
                by_cases hw : ambiguityWords.any
                    (fun u => strContainsSub s.toLower u)
                · rw [if_pos hw] at h
                  exact ⟨fs, _, rfl, (Except.ok.inj h).symm⟩
                · rw [if_neg hw] at h
                  exact ⟨fs, [], rfl, by
                    simpa using (Except.ok.inj h).symm⟩
              | jbool b => simp at h
              | jint n => simp at h
              | jfloat q => simp at h
              | jnull => simp at h
              | jarr xs => simp at h
              | jobj gs => simp at h
          · rw [if_neg hcl] at h
            exact ⟨fs, [], rfl, by simpa using (Except.ok.inj h).symm⟩
        · rw [if_neg htru] at h
          exact ⟨fs, _, rfl, (Except.ok.inj h).symm⟩
  | jbool b => simp [addMetadata] at h
  | jint n => simp [addMetadata] at h
  | jfloat q => simp [addMetadata] at h
  | jstr s => simp [addMetadata] at h
  | jnull => simp [addMetadata] at h
  | jarr xs => simp [addMetadata] at h

theorem metaAttempt_addMetadata {v w : JVal} {a : Nat} {key trade : String}
    (h : addMetadata v a key trade = .ok w) :
    metaAttempt w = some (.jint a) := by
  rcases addMetadata_ok_shape h with ⟨fs, rest, hv, hw⟩
  subst hw
  simp [metaAttempt, getFieldJ, lookup_setField_self,
    lookup_baseMetadata_attempt]

theorem violates_setMeta (fs : List (String × JVal)) (x : JVal) :
    violatesInvariants (.jobj (setField fs "_metadata" x)) =
      violatesInvariants (.jobj fs) := by
  simp only [violatesInvariants]
  rw [lookup_setField_ne fs _ _ x (by decide),
    lookup_setField_ne fs _ _ x (by decide),
    lookup_setField_ne fs _ _ x (by decide)]

theorem attemptStep_ok_payload {o : AttemptOutcome} {a : Nat}
    {key trade : String} {w : JVal}
    (h : attemptStep o a key trade = .ok w) :
    ∃ v, o = .parsed v ∧ validateResponse v = .ok () ∧
      addMetadata v (a + 1) key trade = .ok w := by
  cases o with
  | transportFailure m => simp [attemptStep] at h
  | parseFailure m => simp [attemptStep] at h
  | parsed v =>
    simp only [attemptStep] at h
    cases hval : validateResponse v with
    | error e => rw [hval] at h; exact Except.noConfusion h
    | ok u =>
      cases u
      rw [hval] at h
      dsimp only at h
      cases hmd : addMetadata v (a + 1) key trade with
      | error e => rw [hmd] at h; exact Except.noConfusion h
      | ok x =>
        rw [hmd] at h
        cases Except.ok.inj h
        exact ⟨v, rfl, hval, hmd⟩

theorem attemptStep_ok_noViolation {o : AttemptOutcome} {a : Nat}
    {key trade : String} {w : JVal}
    (h : attemptStep o a key trade = .ok w) :
    violatesInvariants w = false := by
  rcases attemptStep_ok_payload h with ⟨v, _, hval, hmd⟩
  rcases addMetadata_ok_shape hmd with ⟨fs, rest, hv, hw⟩
  subst hv; subst hw
  rw [violates_setMeta]
  exact validateOk_noViolation hval

theorem runFrom_ok_source (step : Nat → Except AErr JVal) (maxRetries : Nat) :
    ∀ fuel a w, (runFrom step maxRetries fuel a).outcome = .ok w →
      ∃ i, step i = .ok w := by
  intro fuel
  induction fuel with
  | zero => intro a w h; simp [runFrom] at h
  | succ n ih =>
    intro a w h
    simp only [runFrom] at h
    cases hs : step a with
    | ok v =>
      rw [hs] at h
      exact ⟨a, by rw [hs, Except.ok.inj h]⟩
    | error e =>
      rw [hs] at h
      dsimp only at h
      by_cases hl : a == maxRetries - 1
      · rw [if_pos hl] at h; exact Except.noConfusion h
      · rw [if_neg hl] at h
        exact ih (a + 1) w h

/-- Payloads returned by the retry loop always come from an accepted
attempt and therefore satisfy every §3 Decision invariant. -/
theorem classifyLoop_ok_noViolation {step : Nat → Except AErr JVal}
    {maxRetries : Nat} {w : JVal}
    (h : (classifyLoop step maxRetries).outcome = .ok w)
    (hstep : ∀ i r, step i = .ok r → violatesInvariants r = false) :
    violatesInvariants w = false := by
  rcases runFrom_ok_source step maxRetries maxRetries 0 w h with ⟨i, hi⟩
  exact hstep i w hi

/-! ## Retry-loop lemmas -/

theorem runFrom_allFail (step : Nat → Except AErr JVal) (N : Nat)
    (hfail : ∀ i, exOk (step i) = false) :
    ∀ fuel a, a + fuel = N → 1 ≤ fuel →
      runFrom step N fuel a =
        ⟨.error (.failure N (errOfE (step (N - 1)))), fuel,
         (List.range' a (fuel - 1)).map (fun k => 2 ^ k)⟩ := by
  intro fuel
  induction fuel with
  | zero => intro a _ h1; omega
  | succ n ih =>
    intro a haN _
    have hstep : ∃ e, step a = .error e := by
      cases hs : step a with
      | ok v => have hx := hfail a; rw [hs] at hx; simp [exOk] at hx
      | error e => exact ⟨e, rfl⟩
    rcases hstep with ⟨e, he⟩
    simp only [runFrom]
    rw [he]
    dsimp only
    by_cases hl : a = N - 1
    · have hn : n = 0 := by omega
      subst hn
      rw [if_pos (by simpa using hl)]
      subst hl
      simp [errOfE, he, List.range']
    · rw [if_neg (by simpa using hl)]
      have h3 : 1 ≤ n := by omega
      rw [ih (a + 1) (by omega) h3]
      obtain ⟨m, rfl⟩ : ∃ m, n = m + 1 := ⟨n - 1, by omega⟩
      simp [List.range'_succ]

/-- Retry exhaustion: with every attempt failing, the loop makes exactly
`N` attempts, sleeps `1, 2, …, 2 ^ (N - 2)` between them, and raises the
terminal failure carrying `N` and the last error. -/
theorem classifyLoop_allFail (step : Nat → Except AErr JVal) (N : Nat)
    (hN : 0 < N) (hfail : ∀ i, exOk (step i) = false) :
    classifyLoop step N =
      ⟨.error (.failure N (errOfE (step (N - 1)))), N,
       (List.range (N - 1)).map (fun k => 2 ^ k)⟩ := by
  have hrun := runFrom_allFail step N hfail N 0 (by omega) (by omega)
  rw [classifyLoop, hrun, List.range_eq_range']

theorem runFrom_firstOk (step : Nat → Except AErr JVal) (N k : Nat) (v : JVal)
    (hfail : ∀ i, i < k → exOk (step i) = false)
    (hk : step k = .ok v) (hkN : k < N) :
    ∀ fuel a, a + fuel = N → a ≤ k →
      runFrom step N fuel a =
        ⟨.ok v, k - a + 1, (List.range' a (k - a)).map (fun j => 2 ^ j)⟩ := by
  intro fuel
  induction fuel with
  | zero => intro a h1 h2; omega
  | succ n ih =>
    intro a h1 h2
    by_cases hak : a = k
    · subst hak
      simp only [runFrom]
      rw [hk]
      simp [List.range']
    · have hlt : a < k := lt_of_le_of_ne h2 hak
      have hstep : ∃ e, step a = .error e := by
        cases hs : step a with
        | ok w => have hx := hfail a hlt; rw [hs] at hx; simp [exOk] at hx
        | error e => exact ⟨e, rfl⟩
      rcases hstep with ⟨e, he⟩
      simp only [runFrom]
      rw [he]
      dsimp only
      rw [if_neg (by simp; omega)]
      rw [ih (a + 1) (by omega) (by omega)]
      obtain ⟨m, hm⟩ : ∃ m, k - a = m + 1 := ⟨k - a - 1, by omega⟩
      have hm2 : k - (a + 1) = m := by omega
      rw [hm2, hm, List.range'_succ]
      simp only [LoopResult.mk.injEq, List.map_cons]

/-- Retry success: with the attempts before `k` failing and attempt `k`
accepted, the loop returns attempt `k`'s payload after exactly `k + 1`
attempts, having slept `1, 2, …, 2 ^ (k - 1)`. -/
theorem classifyLoop_firstOk (step : Nat → Except AErr JVal) (N k : Nat)
    (v : JVal) (hfail : ∀ i, i < k → exOk (step i) = false)
    (hk : step k = .ok v) (hkN : k < N) :
    classifyLoop step N =
      ⟨.ok v, k + 1, (List.range k).map (fun j => 2 ^ j)⟩ := by
  have hrun := runFrom_firstOk step N k v hfail hk hkN N 0 (by omega)
    (by omega)
  rw [classifyLoop, hrun, List.range_eq_range']
  simp

/-! ## Claim theorems -/

/-- C1: the validator rejects every parsed payload that violates a §3
domain invariant — `relevant = false` with a classification other than
`CLOSED`, `CONTESTABLE` with confidence above 85, `SOFT_OPEN` with
confidence above 75 — both in `_validate_schema_invariants` alone and in
the full per-attempt validation; consequently no such payload is ever
accepted by an attempt, returned by the retry loop, or written back to
the cache (the attempt phase stores exactly the accepted payload and
nothing else). -/
theorem c1_invariant_rejection :
    (∀ v : JVal, violatesInvariants v = true →
      ∃ e, validateSchemaInvariants v = .error e) ∧
    (∀ v : JVal, violatesInvariants v = true →
      ∃ e, validateResponse v = .error e) ∧
    (∀ o a key trade w, attemptStep o a key trade = .ok w →
      violatesInvariants w = false) ∧
    (∀ responses key trade N w,
      (classifyLoop (attemptStepOf responses key trade) N).outcome = .ok w →
      violatesInvariants w = false) ∧
    (∀ st now cacheEnabled key trade responses N wf w,
      (classifyAttemptPhase st now cacheEnabled key trade responses N
        wf).result = .ok w →
      violatesInvariants w = false ∧
      (classifyAttemptPhase st now cacheEnabled key trade responses N
        wf).state = (if cacheEnabled then cacheSet st now key w wf else st)) := by
  refine ⟨fun v hv => violates_schemaError hv,
    fun v hv => violates_validateError hv,
    fun o a key trade w h => attemptStep_ok_noViolation h,
    fun responses key trade N w h =>
      classifyLoop_ok_noViolation h (fun i r hr => attemptStep_ok_noViolation hr),
    ?_⟩
  intro st now cacheEnabled key trade responses N wf w h
  have hres := h
  simp only [classifyAttemptPhase] at hres
  cases ho : (classifyLoop (attemptStepOf responses key trade) N).outcome with
  | ok v =>
    rw [ho] at hres
    dsimp only at hres
    cases Except.ok.inj hres
    refine ⟨classifyLoop_ok_noViolation ho
      (fun i r hr => attemptStep_ok_noViolation hr), ?_⟩
    simp only [classifyAttemptPhase]
    rw [ho]
  | error e =>
    cases e with
    | failure n le =>
      rw [ho] at hres
      dsimp only at hres
      exact Except.noConfusion hres
    | unexpectedExit =>
      rw [ho] at hres
      dsimp only at hres
      exact Except.noConfusion hres

/-- C1 witness: the spec §8 payloads are rejected, and concrete accepted
attempts and loop runs carry no invariant violation. -/
theorem c1_invariant_rejection_witness :
    (∃ e, validateSchemaInvariants pBadRelevant = .error e) ∧
    (∃ e, validateResponse pContest90 = .error e) ∧
    violatesInvariants pValid80Meta1 = false ∧
    violatesInvariants c8Result = false ∧
    (classifyAttemptPhase emptyCache 0 false "k" "Electrical"
      (fun _ => .parsed pValid80) 1 false).state = emptyCache := by
  obtain ⟨h1, h2, h3, h4, h5⟩ := c1_invariant_rejection
  refine ⟨h1 pBadRelevant (by decide), h2 pContest90 (by decide),
    h3 (.parsed pValid80) 0 "k" "Electrical" pValid80Meta1 rfl,
    h4 c8Responses "k" "Electrical" 3 c8Result rfl, ?_⟩
  exact (h5 emptyCache 0 false "k" "Electrical" (fun _ => .parsed pValid80)
    1 false pValid80Meta1 rfl).2

/-- C2 (amended): validation rejects a raw response that fails to parse,
a parsed response that is not a dict, one with a missing required field,
one whose classification is outside the three-value enumeration, and one
whose confidence is non-numeric or outside `[0, 100]`; validation is a
pure function of the parsed input.  (The original claim said a
non-integer confidence is rejected; the code accepts any `int`-or-`float`
confidence in range — see the counterexample.) -/
theorem c2_validation_rejection :
    (∀ m a key trade,
      attemptStep (.parseFailure m) a key trade = .error (.parse m)) ∧
    (∀ v : JVal, v.isObj = false → validateResponse v = .error .notDict) ∧
    (∀ fs f, f ∈ requiredFields → lookupField fs f = none →
      ∃ e, validateResponse (.jobj fs) = .error e) ∧
    (∀ fs cls, lookupField fs "classification" = some cls →
      isValidClass cls = false → ∃ e, validateResponse (.jobj fs) = .error e) ∧
    (∀ fs conf, lookupField fs "confidence" = some conf →
      (conf.asNum = none ∨ ∃ q, conf.asNum = some q ∧ (q < 0 ∨ 100 < q)) →
      ∃ e, validateResponse (.jobj fs) = .error e) ∧
    (∀ v₁ v₂ : JVal, v₁ = v₂ → validateResponse v₁ = validateResponse v₂) := by
  refine ⟨fun m a key trade => rfl, ?_, ?_, ?_, ?_, fun v₁ v₂ h => by rw [h]⟩
  · intro v h
    cases v with
    | jobj fs => simp [JVal.isObj] at h
    | jbool b => rfl
    | jint n => rfl
    | jfloat q => rfl
    | jstr s => rfl
    | jnull => rfl
    | jarr xs => rfl
  · intro fs f hf hnone
    cases hfm : firstMissing fs requiredFields with
    | some g => exact ⟨.missingField g, by simp [validateResponse, hfm]⟩
    | none =>
      have hsome := firstMissing_none fs requiredFields hfm f hf
      rw [hnone] at hsome
      simp at hsome
  · intro fs cls hcls hbad
    cases hfm : firstMissing fs requiredFields with
    | some g => exact ⟨.missingField g, by simp [validateResponse, hfm]⟩
    | none =>
      exact ⟨.invalidClassification, by simp [validateResponse, hfm, hcls, hbad]⟩
  · intro fs conf hconf hbad
    cases hfm : firstMissing fs requiredFields with
    | some g => exact ⟨.missingField g, by simp [validateResponse, hfm]⟩
    | none =>
      by_cases hvc : isValidClass ((lookupField fs "classification").getD .jnull)
      · refine ⟨.confidenceRange, ?_⟩
        rcases hbad with hn | ⟨q, hq, hout⟩
        · simp [validateResponse, hfm, hvc, hconf, hn]
        · have hb : (decide (q < 0) || decide (100 < q)) = true := by
            rcases hout with hlt | hgt
            · simp [hlt]
            · simp [hgt]
          simp [validateResponse, hfm, hvc, hconf, hq, hb]
      · exact ⟨.invalidClassification, by simp [validateResponse, hfm, hvc]⟩

/-- C2 counterexample: the claim as stated says validation fails whenever
the confidence is not an integer; but the Python float `72.5` — numeric,
non-integer, in range — is accepted. -/
theorem c2_validation_rejection_cex :
    getFieldJ pHalfConf "confidence" = some (.jfloat (mkRat 145 2)) ∧
    (mkRat 145 2).den = 2 ∧
    validateResponse pHalfConf = .ok () := by
  refine ⟨rfl, by decide, rfl⟩

/-- C2 witness: each rejection clause at a concrete payload. -/
theorem c2_validation_rejection_witness :
    attemptStep (.parseFailure "bad json") 0 "k" "Electrical" =
      .error (.parse "bad json") ∧
    validateResponse (.jstr "oops") = .error .notDict ∧
    (∃ e, validateResponse (.jobj [("trade_relevant", .jbool true)]) =
      .error e) ∧
    (∃ e, validateResponse pBadClass = .error e) ∧
    (∃ e, validateResponse (.jobj pConf101Fields) = .error e) := by
  obtain ⟨h1, h2, h3, h4, h5, _⟩ := c2_validation_rejection
  refine ⟨h1 "bad json" 0 "k" "Electrical", h2 _ rfl,
    h3 [("trade_relevant", .jbool true)] "classification" (by decide) rfl,
    h4 pBadClassFields (.jint 3) rfl rfl, ?_⟩
  exact h5 pConf101Fields (.jint 101) rfl
    (Or.inr ⟨((101 : Int) : Rat), rfl, Or.inr (by decide)⟩)

/-! ## Fingerprint lemmas and claim C3 -/

theorem noColon_append_inj (l₁ : List Char) :
    ∀ (l₂ r₁ r₂ : List Char), ':' ∉ l₁ → ':' ∉ l₂ →
      l₁ ++ ':' :: r₁ = l₂ ++ ':' :: r₂ → l₁ = l₂ ∧ r₁ = r₂ := by
  induction l₁ with
  | nil =>
    intro l₂ r₁ r₂ _ h₂ h
    cases l₂ with
    | nil => simpa using h
    | cons b bs =>
      simp only [List.nil_append, List.cons_append, List.cons.injEq] at h
      rcases h with ⟨hb, _⟩
      subst hb
      exact absurd (List.mem_cons_self _ _) h₂
  | cons a as ih =>
    intro l₂ r₁ r₂ h₁ h₂ h
    cases l₂ with
    | nil =>
      simp only [List.cons_append, List.nil_append, List.cons.injEq] at h
      rcases h with ⟨ha, _⟩
      subst ha
      exact absurd (List.mem_cons_self _ _) h₁
    | cons b bs =>
      simp only [List.cons_append, List.cons.injEq] at h
      rcases h with ⟨hab, htl⟩
      have h₁a : ':' ∉ as := fun hm => h₁ (List.mem_cons_of_mem _ hm)
      have h₂b : ':' ∉ bs := fun hm => h₂ (List.mem_cons_of_mem _ hm)
      rcases ih bs r₁ r₂ h₁a h₂b htl with ⟨he, hr⟩
      exact ⟨by rw [hab, he], hr⟩

theorem canonicalEncoding_data (c t : String) :
    (canonicalEncoding c t).data = c.data ++ ':' :: t.data := by
  simp [canonicalEncoding, String.data_append]

theorem canonicalEncoding_inj (c₁ t₁ c₂ t₂ : String)
    (h₁ : ':' ∉ c₁.data) (h₂ : ':' ∉ c₂.data)
    (h : canonicalEncoding c₁ t₁ = canonicalEncoding c₂ t₂) :
    c₁ = c₂ ∧ t₁ = t₂ := by
  have hd : c₁.data ++ ':' :: t₁.data = c₂.data ++ ':' :: t₂.data := by
    have hdd := congrArg String.data h
    rwa [canonicalEncoding_data, canonicalEncoding_data] at hdd
  rcases noColon_append_inj c₁.data c₂.data t₁.data t₂.data h₁ h₂ hd with
    ⟨hc, ht⟩
  exact ⟨String.ext hc, String.ext ht⟩

/-- C3 (amended): the fingerprint is the SHA-256 hex digest of the UTF-8
bytes of the canonical encoding `category ++ ":" ++ text`; it is a pure
function of the (category, text) pair (hence stable across calls and
processes); and two pairs whose categories contain no `':'` separator —
true of all three valid trades — have equal canonical encodings only when
they are the same pair, so their fingerprints can differ only by a
SHA-256 collision.  (The original claim's unconditional injectivity fails:
the separator is ambiguous when the category itself contains `':'` — see
the counterexample.) -/
theorem c3_fingerprint (c₁ t₁ c₂ t₂ : String) :
    cacheKeyFn t₁ c₁ = sha256Hex (utf8Encode (canonicalEncoding c₁ t₁)) ∧
    (c₁ = c₂ → t₁ = t₂ → cacheKeyFn t₁ c₁ = cacheKeyFn t₂ c₂) ∧
    (':' ∉ c₁.data → ':' ∉ c₂.data →
      canonicalEncoding c₁ t₁ = canonicalEncoding c₂ t₂ →
      c₁ = c₂ ∧ t₁ = t₂) := by
  refine ⟨rfl, fun hc ht => by rw [hc, ht], ?_⟩
  exact fun h₁ h₂ h => canonicalEncoding_inj c₁ t₁ c₂ t₂ h₁ h₂ h

/-- C3 counterexample: the distinct pairs `("a", "b:c")` and
`("a:b", "c")` share the canonical encoding `"a:b:c"` and therefore the
same fingerprint, refuting "any two distinct pairs yield different
fingerprints". -/
theorem c3_fingerprint_cex :
    (("a", "b:c") : String × String) ≠ ("a:b", "c") ∧
    cacheKeyFn "b:c" "a" = cacheKeyFn "c" "a:b" := by
  refine ⟨by decide, ?_⟩
  have henc : canonicalEncoding "a" "b:c" = canonicalEncoding "a:b" "c" := by
    decide
  exact congrArg (fun s => sha256Hex (utf8Encode s)) henc

/-- C3 witness: the injectivity clause applied to the valid trade
`"Electrical"` (whose name contains no separator). -/
theorem c3_fingerprint_witness :
    cacheKeyFn "x" "Electrical" =
      sha256Hex (utf8Encode (canonicalEncoding "Electrical" "x")) ∧
    ("Electrical" : String) = "Electrical" ∧ ("x" : String) = "x" := by
  obtain ⟨h1, _, h3⟩ := c3_fingerprint "Electrical" "x" "Electrical" "x"
  exact ⟨h1, h3 (by decide) (by decide) rfl⟩

/-! ## Cache lemmas and claims C4-C6 -/

theorem stPut_self (st : CacheState) (k : String) (e : StoredEntry) :
    stPut st k e k = some e := by
  simp [stPut]

theorem stDel_self (st : CacheState) (k : String) : stDel st k k = none := by
  simp [stDel]

theorem truthy_setField (fs : List (String × JVal)) (k : String) (v : JVal) :
    (JVal.jobj (setField fs k v)).truthy = true := by
  cases hset : setField fs k v with
  | nil => exact absurd hset (setField_ne_nil fs k v)
  | cons p l => simp [JVal.truthy]

theorem annotateHit_ok_truthy {fs1 : List (String × JVal)} {age : Rat}
    {r : JVal} (h : annotateHit fs1 age = .ok r) : r.truthy = true := by
  simp only [annotateHit] at h
  cases hm : lookupField fs1 "_metadata" with
  | none =>
    rw [hm] at h
    dsimp only at h
    cases Except.ok.inj h
    exact truthy_setField _ _ _
  | some x =>
    rw [hm] at h
    cases x with
    | jobj md =>
      dsimp only at h
      cases Except.ok.inj h
      exact truthy_setField _ _ _
    | jbool b => exact Except.noConfusion h
    | jint n => exact Except.noConfusion h
    | jfloat q => exact Except.noConfusion h
    | jstr s => exact Except.noConfusion h
    | jnull => exact Except.noConfusion h
    | jarr xs => exact Except.noConfusion h

/-- C4: `get` hands back a Decision only when an entry exists for the
fingerprint and its age `now - created` is at most the ttl; and for an
entry created at time `ts`, any lookup with `ttl < now - ts` reports the
entry absent and deletes it as a side effect of the lookup. -/
theorem c4_cache_ttl :
    (∀ ttl st now key d st2,
      cacheGet ttl st now key = (.ok (some d), st2) →
      ∃ fs ts, st key = some (.val (.jobj fs)) ∧ tsOfFields fs = some ts ∧
        now - ts ≤ ttl) ∧
    (∀ ttl st now key fs ts, st key = some (.val (.jobj fs)) →
      tsOfFields fs = some ts → ttl < now - ts →
      cacheGet ttl st now key = (.ok none, stDel st key) ∧
      stDel st key key = none) := by
  constructor
  · intro ttl st now key d st2 h
    simp only [cacheGet] at h
    cases hk : st key with
    | none => rw [hk] at h; simp at h
    | some entry =>
      rw [hk] at h
      cases entry with
      | unreadable => simp at h
      | notJson => simp at h
      | val cached =>
        cases cached with
        | jobj fs =>
          dsimp only at h
          cases hts : tsOfFields fs with
          | none => rw [hts] at h; simp at h
          | some ts =>
            rw [hts] at h
            dsimp only at h
            rw [ratSub_eq] at h
            by_cases hage : ttl < now - ts
            · rw [if_pos hage] at h; simp at h
            · exact ⟨fs, ts, rfl, hts, not_lt.mp hage⟩
        | jbool b => simp at h
        | jint n => simp at h
        | jfloat q => simp at h
        | jstr s => simp at h
        | jnull => simp at h
        | jarr xs => simp at h
  · intro ttl st now key fs ts hk hts hage
    refine ⟨?_, stDel_self st key⟩
    simp only [cacheGet]
    rw [hk]
    dsimp only
    rw [hts]
    dsimp only
    rw [ratSub_eq, if_pos hage]

/-- C4 witness: the entry written at time 50 is served at time 60
(age 10 ≤ ttl 100) and is gone — with deletion — at time 200
(age 150 > ttl 100). -/
theorem c4_cache_ttl_witness :
    (∃ fs ts, stC4 "k1" = some (.val (.jobj fs)) ∧ tsOfFields fs = some ts ∧
      (60 : Rat) - ts ≤ 100) ∧
    cacheGet 100 stC4 200 "k1" = (.ok none, stDel stC4 "k1") ∧
    stDel stC4 "k1" "k1" = none := by
  obtain ⟨h1, h2⟩ := c4_cache_ttl
  have hfst := h1 100 stC4 60 "k1"
    (.jobj (setField (removeField c4Fields "_cache_timestamp") "_metadata"
      (.jobj [("cache_hit", .jbool true), ("cache_age_seconds", .jint 10)])))
    stC4 rfl
  have hsnd := h2 100 stC4 200 "k1" c4Fields 50 rfl rfl (by norm_num)
  exact ⟨hfst, hsnd.1, hsnd.2⟩

/-- C5: writing a Decision dict and reading it back within the ttl
returns the same dict up to the stripped `_cache_timestamp` and the added
`cache_hit` / `cache_age_seconds` annotations inside `_metadata`; the
write overwrites whatever entry the fingerprint had. -/
theorem c5_cache_roundtrip (ttl : Rat) (st : CacheState) (now1 now2 : Rat)
    (key : String) (fs : List (String × JVal))
    (hmeta : lookupField (removeField fs "_cache_timestamp") "_metadata" =
        none ∨
      ∃ md, lookupField (removeField fs "_cache_timestamp") "_metadata" =
        some (.jobj md))
    (hfresh : now2 - now1 ≤ ttl) :
    (∃ r, annotateHit (removeField fs "_cache_timestamp") (now2 - now1) =
        .ok r ∧
      cacheGet ttl (cacheSet st now1 key (.jobj fs) false) now2 key =
        (.ok (some r), cacheSet st now1 key (.jobj fs) false)) ∧
    cacheSet st now1 key (.jobj fs) false key =
      some (.val (.jobj (setField fs "_cache_timestamp" (.jfloat now1)))) := by
  have hput : cacheSet st now1 key (.jobj fs) false key =
      some (.val (.jobj (setField fs "_cache_timestamp" (.jfloat now1)))) := by
    simp [cacheSet, JVal.setF, stPut]
  refine ⟨?_, hput⟩
  have hts : tsOfFields (setField fs "_cache_timestamp" (.jfloat now1)) =
      some now1 := by
    simp [tsOfFields, lookup_setField_self, JVal.asNum]
  have hann : ∃ r, annotateHit (removeField fs "_cache_timestamp")
      (now2 - now1) = .ok r := by
    obtain hmn | ⟨md, hmd⟩ := hmeta
    · exact ⟨.jobj (setField (removeField fs "_cache_timestamp") "_metadata"
        (.jobj [("cache_hit", .jbool true),
                ("cache_age_seconds", .jint (truncInt (now2 - now1)))])),
        by simp [annotateHit, hmn]⟩
    · exact ⟨.jobj (setField (removeField fs "_cache_timestamp") "_metadata"
        (.jobj (setField (setField md "cache_hit" (.jbool true))
          "cache_age_seconds" (.jint (truncInt (now2 - now1)))))),
        by simp [annotateHit, hmd]⟩
  obtain ⟨r, hr⟩ := hann
  refine ⟨r, hr, ?_⟩
  simp only [cacheGet]
  rw [hput]
  dsimp only
  rw [hts]
  dsimp only
  rw [ratSub_eq, if_neg (not_lt.mpr hfresh), remove_setField, hr]

/-- C5 witness: round trip of the valid Decision through an empty cache,
written at time 10 and read at time 20 with a one-day ttl. -/
theorem c5_cache_roundtrip_witness :
    (∃ r, annotateHit (removeField pValid80Fields "_cache_timestamp")
        ((20 : Rat) - 10) = .ok r ∧
      cacheGet 86400 (cacheSet emptyCache 10 "k2" (.jobj pValid80Fields)
        false) 20 "k2" =
        (.ok (some r), cacheSet emptyCache 10 "k2" (.jobj pValid80Fields)
          false)) ∧
    cacheSet emptyCache 10 "k2" (.jobj pValid80Fields) false "k2" =
      some (.val (.jobj (setField pValid80Fields "_cache_timestamp"
        (.jfloat 10)))) :=
  c5_cache_roundtrip 86400 emptyCache 10 20 "k2" pValid80Fields
    (Or.inl rfl) (by norm_num)

/-- C6 (amended): an entry that cannot be read (`OSError`) or fails to
parse as JSON is deleted and treated as absent, and a failed write is
swallowed leaving the store unchanged — no exception escapes on those
paths.  (The original claim's "for every stored file content" fails: an
entry that parses to JSON with a non-numeric `_cache_timestamp`, a
non-dict top-level value, or a non-dict `_metadata` raises
`TypeError` / `AttributeError` to the caller — see the counterexample.) -/
theorem c6_cache_errors :
    (∀ ttl st now key, st key = some .unreadable →
      cacheGet ttl st now key = (.ok none, stDel st key) ∧
      stDel st key key = none) ∧
    (∀ ttl st now key, st key = some .notJson →
      cacheGet ttl st now key = (.ok none, stDel st key) ∧
      stDel st key key = none) ∧
    (∀ st now key v, cacheSet st now key v true = st) := by
  refine ⟨?_, ?_, fun st now key v => rfl⟩
  · intro ttl st now key h
    refine ⟨?_, stDel_self st key⟩
    simp only [cacheGet]
    rw [h]
  · intro ttl st now key h
    refine ⟨?_, stDel_self st key⟩
    simp only [cacheGet]
    rw [h]

/-- C6 counterexample: a stored entry that is valid JSON but carries a
string `_cache_timestamp` makes `get` raise `TypeError` to the caller
(the `except` clause only catches `json.JSONDecodeError` and `OSError`),
refuting "never propagates an exception" for arbitrary stored content. -/
theorem c6_cache_errors_cex :
    (cacheGet 86400 stBadTs 0 "badkey").1 = .error .typeError := by
  rfl

/-- C6 witness: the swallowing clauses at concrete stores. -/
theorem c6_cache_errors_witness :
    (cacheGet 86400 stUnreadable 0 "u" = (.ok none, stDel stUnreadable "u") ∧
      stDel stUnreadable "u" "u" = none) ∧
    (cacheGet 86400 stNotJson 0 "j" = (.ok none, stDel stNotJson "j") ∧
      stDel stNotJson "j" "j" = none) ∧
    cacheSet emptyCache 0 "w" (.jobj []) true = emptyCache := by
  obtain ⟨h1, h2, h3⟩ := c6_cache_errors
  exact ⟨h1 86400 stUnreadable 0 "u" rfl, h2 86400 stNotJson 0 "j" rfl,
    h3 emptyCache 0 "w" (.jobj [])⟩

/-! ## Claims C7-C10 and the hash sanity checks -/

/-- C7: with every attempt failing (transport failure, parse failure, or
validation rejection alike), the retry loop with budget `N ≥ 1` makes
exactly `N` attempts, sleeps `2 ^ (k - 1)` time units after the `k`-th
failure for every `k < N`, and raises the terminal failure carrying the
last underlying error and the attempt count `N`; it never makes more than
`N` attempts. -/
theorem c7_retry_termination (responses : Nat → AttemptOutcome)
    (key trade : String) (N : Nat) (hN : 0 < N)
    (hfail : ∀ i, exOk (attemptStepOf responses key trade i) = false) :
    classifyLoop (attemptStepOf responses key trade) N =
      ⟨.error (.failure N (errOfE (attemptStepOf responses key trade
        (N - 1)))), N, (List.range (N - 1)).map (fun j => 2 ^ j)⟩ :=
  classifyLoop_allFail _ N hN hfail

/-- C7 witness: three attempts against an always-failing transport,
with sleeps `[1, 2]` and a terminal failure carrying `attempts = 3`. -/
theorem c7_retry_termination_witness :
    classifyLoop (attemptStepOf (fun _ => .transportFailure "boom") "k"
      "Electrical") 3 =
      ⟨.error (.failure 3 (.transport "boom")), 3, [1, 2]⟩ := by
  have h := c7_retry_termination (fun _ => .transportFailure "boom") "k"
    "Electrical" 3 (by decide) (fun i => rfl)
  simpa using h

/-- C8: when the attempts before index `k` fail (transport, parse, or
invariant rejection alike) and attempt `k` produces a payload passing
validation, the loop inside the budget discards the failures, accepts the
first valid payload, and returns it with no exception after exactly
`k + 1` attempts, its metadata recording attempt number `k + 1`. -/
theorem c8_retry_success (responses : Nat → AttemptOutcome)
    (key trade : String) (N k : Nat) (v w : JVal) (hkN : k < N)
    (hfail : ∀ i, i < k → exOk (attemptStepOf responses key trade i) = false)
    (hparsed : responses k = .parsed v)
    (hval : validateResponse v = .ok ())
    (hmeta : addMetadata v (k + 1) key trade = .ok w) :
    classifyLoop (attemptStepOf responses key trade) N =
      ⟨.ok w, k + 1, (List.range k).map (fun j => 2 ^ j)⟩ ∧
    metaAttempt w = some (.jint (k + 1)) := by
  have hstep : attemptStepOf responses key trade k = .ok w := by
    simp [attemptStepOf, attemptStep, hparsed, hval, hmeta]
  exact ⟨classifyLoop_firstOk _ N k w hfail hstep hkN,
    metaAttempt_addMetadata hmeta⟩

/-- C8 witness: the spec §8 scenario — a transport failure, then a
`CONTESTABLE`/95 payload rejected on invariant grounds, then a valid
confidence-80 payload accepted: three attempts, sleeps `[1, 2]`, attempt
metadata 3. -/
theorem c8_retry_success_witness :
    classifyLoop (attemptStepOf c8Responses "k" "Electrical") 3 =
      ⟨.ok c8Result, 3, [1, 2]⟩ ∧
    metaAttempt c8Result = some (.jint 3) := by
  have h := c8_retry_success c8Responses "k" "Electrical" 3 2 pValid80
    c8Result (by decide)
    (by intro i hi; interval_cases i <;> rfl) rfl rfl rfl
  simpa using h

/-- C9: `classify_batch` maps each input item to one output slot in input
order — a success slot carries the classification (plus `update_id` when
an id was given), a failure slot carries the error record with the error
text, the original text and trade, and classification `"ERROR"` — except
that the progress summary divides by the item count (and by the elapsed
time), so with `show_progress` enabled an empty batch raises
`ZeroDivisionError` instead of returning `[]`, contradicting the claim's
"for every list"; with progress reporting disabled the per-item mapping
holds for every list. -/
theorem c9_batch_capture :
    classifyBatch c9Classify [] true 1 = .error .zeroDivision ∧
    (∀ (classify : BatchItem → Except String JVal)
      (items : List BatchItem) (elapsed : Rat),
      classifyBatch classify items false elapsed =
        .ok (items.map (batchRecord classify))) ∧
    classifyBatch c9Classify [c9Good, c9Bad] false 1 =
      .ok [.jobj [("classification", .jstr "CONTESTABLE"),
                  ("update_id", .jstr "u1")],
           .jobj [("error", .jstr "boom"), ("text", .jstr "bad"),
                  ("trade", .jstr "Electrical"),
                  ("classification", .jstr "ERROR")]] := by
  exact ⟨rfl, fun classify items elapsed => rfl, rfl⟩

/-- C10: when the cache holds a fresh entry under the fingerprint of
(text, trade) — no matter what dict it is, including one violating the §3
Decision invariants — `classify_update` returns the stored dict with only
the cache-hit annotations added, makes zero remote attempts, runs no
validation, and leaves the cache unchanged, for any response behaviour
of the remote call. -/
theorem c10_cache_bypass (ttl : Rat) (st : CacheState) (now : Rat)
    (text trade : String) (responses : Nat → AttemptOutcome) (N : Nat)
    (wf : Bool) (fields : List (String × JVal)) (ts : Rat) (r : JVal)
    (htrade : trade ∈ validTrades)
    (hst : st (cacheKeyFn text trade) = some (.val (.jobj fields)))
    (hts : tsOfFields fields = some ts)
    (hfresh : now - ts ≤ ttl)
    (hann : annotateHit (removeField fields "_cache_timestamp")
      (now - ts) = .ok r) :
    classifyUpdate ttl st now true text trade responses N wf =
      ⟨.ok r, st, 0, []⟩ := by
  have hget : cacheGet ttl st now (cacheKeyFn text trade) =
      (.ok (some r), st) := by
    simp only [cacheGet]
    rw [hst]
    dsimp only
    rw [hts]
    dsimp only
    rw [ratSub_eq, if_neg (not_lt.mpr hfresh), hann]
  have htru : r.truthy = true := annotateHit_ok_truthy hann
  simp only [classifyUpdate, classifyUpdateWith, if_pos htrade, if_true]
  rw [hget]
  dsimp only
  rw [if_pos htru]

/-- C10 witness: a cached `CONTESTABLE`/95 dict — rejected by the
validator, as the conjunct shows — is nevertheless returned as-is with
cache annotations, with zero attempts made. -/
theorem c10_cache_bypass_witness :
    violatesInvariants (.jobj c10Fields) = true ∧
    (∃ e, validateResponse (.jobj (removeField c10Fields
      "_cache_timestamp")) = .error e) ∧
    classifyUpdate 86400 st10 100 true "Amendment 2 issued." "Electrical"
      (fun _ => .transportFailure "never called") 3 false =
      ⟨.ok c10Result, st10, 0, []⟩ := by
  refine ⟨by decide, ⟨.contestableCeiling, rfl⟩, ?_⟩
  have hann : annotateHit (removeField c10Fields "_cache_timestamp")
      ((100 : Rat) - 100) = .ok c10Result := by
    have h0 : (100 : Rat) - 100 = 0 := by norm_num
    rw [h0]
    rfl
  exact c10_cache_bypass 86400 st10 100 "Amendment 2 issued."
    "Electrical" (fun _ => .transportFailure "never called") 3 false
    c10Fields 100 c10Result (by decide) rfl rfl (by norm_num) hann

/-- Sanity check of the hash implementation against the FIPS 180-4 test
vector for the empty message. -/
theorem sha256_empty_vector :
    sha256Hex (utf8Encode "") =
      "e3b0c44298fc1c149afbf4c8996fb92427ae41e4649b934ca495991b7852b855" := by
  decide

/-- Sanity check against the FIPS 180-4 test vector for `"abc"`. -/
theorem sha256_abc_vector :
    sha256Hex (utf8Encode "abc") =
      "ba7816bf8f01cfea414140de5dae2223b00361a396177a9cb410ff61f20015ad" := by
  decide

end ScopeSignal
